import Mathlib

/-
Verification of the CI cost-estimation core of the oss-repo-ci-cost
repository.

The embedded code is the Cost Model and Run Aggregator:
  * `PRICING`, `detectRunnerOS`, `calculateCostFromJobs` and the inline
    authoritative-usage computation of `calculateRepoCost` from
    `lib/github.ts` (the TypeScript implementation used by the web app),
  * `calculateCost` from `src/pricing.js` (the CLI implementation of the
    authoritative-usage computation).

Modelling conventions:
  * JavaScript numbers are modelled as rationals (ℚ); IEEE-754 rounding is
    outside the model, which captures the intended exact arithmetic.
  * `job.started_at` / `job.completed_at` are ISO strings parsed with
    `new Date(...)` in the source; they are modelled directly as optional
    epoch-millisecond values, since date parsing is an external concern.
  * The `billable` payload returned by the usage endpoint is a dynamic
    object; it is modelled as an association list from key strings to an
    optional `total_ms` value (`none` models an entry without a `total_ms`
    field).  `timing.data.billable || {}` makes an absent payload the empty
    list.
  * The two per-run fetch capabilities are external; a `Run` carries their
    pre-resolved outcomes (`none` models a fetch that throws).  Every
    remaining computation in `calculateRepoCost` is pure and total: all
    per-run errors are swallowed by the surrounding try/catch blocks, so
    the aggregate itself is embedded as a total function.
  * JavaScript `String.prototype.includes` and `toLowerCase` are modelled
    by structurally recursive character-list functions so that concrete
    instances compute by `decide`.
-/

/-- Character-list version of string prefix testing, used to model the
JavaScript `String.prototype.includes` check structurally. -/
def charsStartWith : List Char → List Char → Bool
  | _, [] => true
  | [], _ :: _ => false
  | c :: cs, d :: ds => c == d && charsStartWith cs ds

/-- Containment of `needle` as a contiguous segment of `hay`. -/
def charsContain : List Char → List Char → Bool
  | [], needle => needle.isEmpty
  | c :: cs, needle => charsStartWith (c :: cs) needle || charsContain cs needle

/-- Model of JavaScript `s.includes(sub)`. -/
def jsIncludes (s sub : String) : Bool :=
  charsContain s.data sub.data

/-- Model of JavaScript `s.toLowerCase()` (ASCII case folding). -/
def jsToLower (s : String) : String :=
  ⟨s.data.map Char.toLower⟩

/-- Per-minute rate for standard Linux runners (PRICING.LINUX). -/
def PRICING.LINUX : ℚ := 0.008

/-- Per-minute rate for Windows runners (PRICING.WINDOWS, 2x multiplier). -/
def PRICING.WINDOWS : ℚ := 0.016

/-- Per-minute rate for macOS runners (PRICING.MACOS, 10x multiplier). -/
def PRICING.MACOS : ℚ := 0.08

/-- The closed OS classification used by the cost model; `UBUNTU` is the
Linux class and the default. -/
inductive OSClass where
  | UBUNTU
  | WINDOWS
  | MACOS
deriving DecidableEq, Repr

/-- Rate of one OS class, as read off the PRICING constant. -/
def PRICING.rate : OSClass → ℚ
  | .UBUNTU => PRICING.LINUX
  | .WINDOWS => PRICING.WINDOWS
  | .MACOS => PRICING.MACOS

/-- Accumulated minutes and cost of one OS class
(`{ minutes: number; cost: number }` in the source). -/
structure ClassCost where
  minutes : ℚ
  cost : ℚ
deriving DecidableEq, Repr

/-- The `breakdown` record of a `CostResult`. -/
structure Breakdown where
  UBUNTU : ClassCost
  WINDOWS : ClassCost
  MACOS : ClassCost
deriving DecidableEq, Repr

/-- Field of a breakdown selected by OS class. -/
def Breakdown.get (b : Breakdown) : OSClass → ClassCost
  | .UBUNTU => b.UBUNTU
  | .WINDOWS => b.WINDOWS
  | .MACOS => b.MACOS

/-- The `CostResult` record of `lib/github.ts`. -/
structure CostResult where
  linux : ℚ
  windows : ℚ
  macos : ℚ
  total : ℚ
  breakdown : Breakdown
deriving DecidableEq, Repr

/-- The all-zero `CostResult` literal that each computation starts from. -/
def emptyCosts : CostResult :=
  { linux := 0, windows := 0, macos := 0, total := 0
    breakdown :=
      { UBUNTU := { minutes := 0, cost := 0 }
        WINDOWS := { minutes := 0, cost := 0 }
        MACOS := { minutes := 0, cost := 0 } } }

/-- Embeds `detectRunnerOS` from `lib/github.ts`: lower-case every label,
return MACOS if any contains "macos" or "mac-os", else WINDOWS if any
contains "windows", else UBUNTU (the Linux default). -/
def detectRunnerOS (labels : List String) : OSClass :=
  let labelsLower := labels.map jsToLower
  if labelsLower.any (fun l => jsIncludes l "macos" || jsIncludes l "mac-os") then
    .MACOS
  else if labelsLower.any (fun l => jsIncludes l "windows") then
    .WINDOWS
  else
    .UBUNTU

/-- A job record: optional start and completion timestamps (epoch ms) and
free-text runner labels. -/
structure Job where
  started_at : Option ℚ
  completed_at : Option ℚ
  labels : List String

/-- Loop body of `calculateCostFromJobs`: a job missing either timestamp is
skipped; otherwise its duration in minutes and the corresponding cost are
added to the bucket of its detected OS class. -/
def addJobCost (costs : CostResult) (job : Job) : CostResult :=
  match job.started_at, job.completed_at with
  | some startTime, some endTime =>
    let durationMs := endTime - startTime
    let minutes := durationMs / 1000 / 60
    match detectRunnerOS job.labels with
    | .UBUNTU =>
      { costs with
        linux := costs.linux + minutes * PRICING.LINUX
        breakdown :=
          { costs.breakdown with
            UBUNTU :=
              { minutes := costs.breakdown.UBUNTU.minutes + minutes
                cost := costs.breakdown.UBUNTU.cost + minutes * PRICING.LINUX } } }
    | .WINDOWS =>
      { costs with
        windows := costs.windows + minutes * PRICING.WINDOWS
        breakdown :=
          { costs.breakdown with
            WINDOWS :=
              { minutes := costs.breakdown.WINDOWS.minutes + minutes
                cost := costs.breakdown.WINDOWS.cost + minutes * PRICING.WINDOWS } } }
    | .MACOS =>
      { costs with
        macos := costs.macos + minutes * PRICING.MACOS
        breakdown :=
          { costs.breakdown with
            MACOS :=
              { minutes := costs.breakdown.MACOS.minutes + minutes
                cost := costs.breakdown.MACOS.cost + minutes * PRICING.MACOS } } }
  | _, _ => costs

/-- Embeds `calculateCostFromJobs` from `lib/github.ts`: fold the loop body
over the job list, then set `total` to the sum of the three class costs. -/
def calculateCostFromJobs (jobs : List Job) : CostResult :=
  let costs := jobs.foldl addJobCost emptyCosts
  { costs with total := costs.linux + costs.windows + costs.macos }

/-- The dynamic `billable` payload of the usage endpoint: key strings paired
with an optional `total_ms` value (`none` models a value without a
`total_ms` field). -/
abbrev Billable := List (String × Option ℚ)

/-- Embeds the sufficiency scan of `calculateRepoCost`: `hasBillableData` is
true when some key of the payload carries a positive `total_ms`.  Note that
it scans every key, not only the three OS-class keys. -/
def hasBillableData (billable : Billable) : Bool :=
  billable.any fun p =>
    match p.2 with
    | some t => decide (0 < t)
    | none => false

/-- The `total_ms` of one key of the payload, when the key is present and
carries the field (the `billable.X && "total_ms" in billable.X` guard). -/
def classMs (billable : Billable) (key : String) : Option ℚ :=
  match billable.lookup key with
  | some (some t) => some t
  | _ => none

/-- Per-class computation of the authoritative branch of
`calculateRepoCost`: when the key is present with a `total_ms`, minutes are
`total_ms / 1000 / 60` and cost is `minutes * rate`; otherwise the class
keeps its zero initialisation. -/
def classCostOf (rate : ℚ) (billable : Billable) (key : String) : ClassCost :=
  match classMs billable key with
  | some t =>
    let minutes := t / 1000 / 60
    { minutes := minutes, cost := minutes * rate }
  | none => { minutes := 0, cost := 0 }

/-- Embeds the authoritative-usage cost computation inlined in
`calculateRepoCost` (`lib/github.ts`): each of the three OS keys is read
and converted independently, and `total` is the sum of the three costs. -/
def calculateCostFromBillable (billable : Billable) : CostResult :=
  let ubuntu := classCostOf PRICING.LINUX billable "UBUNTU"
  let windows := classCostOf PRICING.WINDOWS billable "WINDOWS"
  let macos := classCostOf PRICING.MACOS billable "MACOS"
  { linux := ubuntu.cost, windows := windows.cost, macos := macos.cost
    total := ubuntu.cost + windows.cost + macos.cost
    breakdown := { UBUNTU := ubuntu, WINDOWS := windows, MACOS := macos } }

/-- The authoritative path of `calculateRepoCost` as one operation: `none`
models the thrown `"No billable data"` error (the InsufficientData signal
consumed by the in-function fallback to the job-based computation). -/
def computeFromAuthoritative (billable : Billable) : Option CostResult :=
  if hasBillableData billable then some (calculateCostFromBillable billable) else none

/-- Embeds `calculateCost` from `src/pricing.js` (the CLI cost model): the
same three-key computation, over a payload whose present values carry a
numeric `total_ms`. -/
def calculateCost (billable : List (String × ℚ)) : CostResult :=
  let ubuntu :=
    match billable.lookup "UBUNTU" with
    | some t =>
      let minutes := t / 1000 / 60
      ({ minutes := minutes, cost := minutes * PRICING.LINUX } : ClassCost)
    | none => { minutes := 0, cost := 0 }
  let windows :=
    match billable.lookup "WINDOWS" with
    | some t =>
      let minutes := t / 1000 / 60
      ({ minutes := minutes, cost := minutes * PRICING.WINDOWS } : ClassCost)
    | none => { minutes := 0, cost := 0 }
  let macos :=
    match billable.lookup "MACOS" with
    | some t =>
      let minutes := t / 1000 / 60
      ({ minutes := minutes, cost := minutes * PRICING.MACOS } : ClassCost)
    | none => { minutes := 0, cost := 0 }
  { linux := ubuntu.cost, windows := windows.cost, macos := macos.cost
    total := ubuntu.cost + windows.cost + macos.cost
    breakdown := { UBUNTU := ubuntu, WINDOWS := windows, MACOS := macos } }

/-- One workflow run as seen by the aggregation loop, carrying the
pre-resolved outcomes of its two external fetches: `usage = none` models a
`getWorkflowRunUsage` call that throws, `jobs = none` a
`listJobsForWorkflowRun` call that throws. -/
structure Run where
  usage : Option Billable
  jobs : Option (List Job)

/-- Cost chosen for one run by the nested try/catch of `calculateRepoCost`:
authoritative data when the usage fetch succeeds and has billable data,
else the job-based computation, else nothing (the run is skipped and the
error only logged). -/
def runCost (run : Run) : Option CostResult :=
  match run.usage with
  | some billable =>
    match computeFromAuthoritative billable with
    | some cost => some cost
    | none =>
      match run.jobs with
      | some jobs => some (calculateCostFromJobs jobs)
      | none => none
  | none =>
    match run.jobs with
    | some jobs => some (calculateCostFromJobs jobs)
    | none => none

/-- True when the authoritative path of a run throws (usage fetch failure
or no billable data), i.e. when the run is routed to the jobs fallback. -/
def usagePathFails (run : Run) : Bool :=
  match run.usage with
  | some billable => !hasBillableData billable
  | none => true

/-- The mutable accumulator of the aggregation loop. -/
structure Totals where
  linuxMinutes : ℚ
  windowsMinutes : ℚ
  macosMinutes : ℚ
  cost : ℚ
  analyzedRuns : Nat

/-- Loop body of `calculateRepoCost`: an analyzed run adds its per-class
minutes and its total cost and bumps `analyzedRuns`; a skipped run leaves
the accumulator unchanged. -/
def stepRun (acc : Totals) (run : Run) : Totals :=
  match runCost run with
  | some cost =>
    { linuxMinutes := acc.linuxMinutes + cost.breakdown.UBUNTU.minutes
      windowsMinutes := acc.windowsMinutes + cost.breakdown.WINDOWS.minutes
      macosMinutes := acc.macosMinutes + cost.breakdown.MACOS.minutes
      cost := acc.cost + cost.total
      analyzedRuns := acc.analyzedRuns + 1 }
  | none => acc

/-- The `CalculationResult` record of `lib/github.ts`. -/
structure CalculationResult where
  slug : String
  owner : String
  repo : String
  daysAnalyzed : ℚ
  totalRuns : Nat
  analyzedRuns : Nat
  linuxMinutes : ℚ
  windowsMinutes : ℚ
  macosMinutes : ℚ
  actualCost : ℚ
  monthlyCost : ℚ
  yearlyCost : ℚ
deriving Repr

/-- Embeds `calculateRepoCost` from `lib/github.ts`, given the fetched run
list (pagination of the listing endpoint is external).  The loop swallows
all per-run errors, and the source contains no validation of `days`: the
function is total.  `30 / days` and `365 / days` are the source's unguarded
divisions (at `days = 0` the source would produce an infinite multiplier,
which the rational model cannot represent; no theorem below relies on the
value at `days = 0`). -/
def calculateRepoCost (owner repo : String) (runs : List Run) (days : ℚ) :
    CalculationResult :=
  let totals := runs.foldl stepRun ⟨0, 0, 0, 0, 0⟩
  let monthlyMultiplier := 30 / days
  let yearlyMultiplier := 365 / days
  { slug := owner ++ "/" ++ repo
    owner := owner
    repo := repo
    daysAnalyzed := days
    totalRuns := runs.length
    analyzedRuns := totals.analyzedRuns
    linuxMinutes := totals.linuxMinutes
    windowsMinutes := totals.windowsMinutes
    macosMinutes := totals.macosMinutes
    actualCost := totals.cost
    monthlyCost := totals.cost * monthlyMultiplier
    yearlyCost := totals.cost * yearlyMultiplier }

/-- Key string of an OS class in the billable payload. -/
def osKey : OSClass → String
  | .UBUNTU => "UBUNTU"
  | .WINDOWS => "WINDOWS"
  | .MACOS => "MACOS"

/-- The `total_ms` a payload carries for a key, defaulting to zero when the
key is absent or has no `total_ms` field. -/
def msOr0 (billable : Billable) (key : String) : ℚ :=
  (classMs billable key).getD 0

/-- Independent description of one job's contribution of minutes to one OS
class: zero unless both timestamps are present and the labels classify to
that class, else the duration in milliseconds divided by 60000. -/
def jobClassMinutes (job : Job) (os : OSClass) : ℚ :=
  match job.started_at, job.completed_at with
  | some startTime, some endTime =>
    if detectRunnerOS job.labels = os then (endTime - startTime) / 60000 else 0
  | _, _ => 0

/-- One job's contribution of cost to one OS class. -/
def jobClassCost (job : Job) (os : OSClass) : ℚ :=
  jobClassMinutes job os * PRICING.rate os

/-- Minutes one run contributes to one OS class of the aggregate (zero for
a skipped run). -/
def runClassMinutes (run : Run) (os : OSClass) : ℚ :=
  match runCost run with
  | some cost => (cost.breakdown.get os).minutes
  | none => 0

/-- Cost one run contributes to the aggregate (zero for a skipped run). -/
def runTotalCost (run : Run) : ℚ :=
  match runCost run with
  | some cost => cost.total
  | none => 0

/-- Contribution of one run to `analyzedRuns`. -/
def runAnalyzedCount (run : Run) : Nat :=
  match runCost run with
  | some _ => 1
  | none => 0

/-- A run whose usage fetch succeeds with one positive Linux entry. -/
def sampleOkRun : Run :=
  { usage := some [("UBUNTU", some 60000)], jobs := none }

/-- A run both of whose fetches fail. -/
def sampleFailedRun : Run :=
  { usage := none, jobs := none }

/-- A run whose authoritative usage is worth exactly one currency unit
(125 Linux minutes at 0.008 per minute). -/
def sampleUnitCostRun : Run :=
  { usage := some [("UBUNTU", some 7500000)], jobs := none }

/-- A CLI-style payload carrying a single class with a given duration. -/
def singleBillable (os : OSClass) (d : ℚ) : List (String × ℚ) :=
  [(osKey os, d)]

lemma addJobCost_get_minutes (costs : CostResult) (job : Job) (os : OSClass) :
    ((addJobCost costs job).breakdown.get os).minutes
      = (costs.breakdown.get os).minutes + jobClassMinutes job os := by
  unfold addJobCost jobClassMinutes
  rcases job.started_at with _ | s <;> rcases job.completed_at with _ | e <;>
    cases hos : detectRunnerOS job.labels <;> cases os <;>
    simp [Breakdown.get, hos, div_div] <;> norm_num

lemma addJobCost_get_cost (costs : CostResult) (job : Job) (os : OSClass) :
    ((addJobCost costs job).breakdown.get os).cost
      = (costs.breakdown.get os).cost + jobClassCost job os := by
  unfold addJobCost jobClassCost jobClassMinutes PRICING.rate
  rcases job.started_at with _ | s <;> rcases job.completed_at with _ | e <;>
    cases hos : detectRunnerOS job.labels <;> cases os <;>
    simp [Breakdown.get, hos, div_div] <;> norm_num

lemma addJobCost_linux (costs : CostResult) (job : Job) :
    (addJobCost costs job).linux = costs.linux + jobClassCost job .UBUNTU := by
  unfold addJobCost jobClassCost jobClassMinutes PRICING.rate
  rcases job.started_at with _ | s <;> rcases job.completed_at with _ | e <;>
    cases hos : detectRunnerOS job.labels <;>
    simp [hos, div_div] <;> norm_num

lemma addJobCost_windows (costs : CostResult) (job : Job) :
    (addJobCost costs job).windows = costs.windows + jobClassCost job .WINDOWS := by
  unfold addJobCost jobClassCost jobClassMinutes PRICING.rate
  rcases job.started_at with _ | s <;> rcases job.completed_at with _ | e <;>
    cases hos : detectRunnerOS job.labels <;>
    simp [hos, div_div] <;> norm_num

lemma addJobCost_macos (costs : CostResult) (job : Job) :
    (addJobCost costs job).macos = costs.macos + jobClassCost job .MACOS := by
  unfold addJobCost jobClassCost jobClassMinutes PRICING.rate
  rcases job.started_at with _ | s <;> rcases job.completed_at with _ | e <;>
    cases hos : detectRunnerOS job.labels <;>
    simp [hos, div_div] <;> norm_num

lemma foldl_addJobCost_get_minutes (jobs : List Job) (acc : CostResult) (os : OSClass) :
    ((jobs.foldl addJobCost acc).breakdown.get os).minutes
      = (acc.breakdown.get os).minutes + (jobs.map (fun j => jobClassMinutes j os)).sum := by
  induction jobs generalizing acc with
  | nil => simp
  | cons j rest ih =>
    simp only [List.foldl_cons, List.map_cons, List.sum_cons, ih, addJobCost_get_minutes]
    ring

lemma foldl_addJobCost_get_cost (jobs : List Job) (acc : CostResult) (os : OSClass) :
    ((jobs.foldl addJobCost acc).breakdown.get os).cost
      = (acc.breakdown.get os).cost + (jobs.map (fun j => jobClassCost j os)).sum := by
  induction jobs generalizing acc with
  | nil => simp
  | cons j rest ih =>
    simp only [List.foldl_cons, List.map_cons, List.sum_cons, ih, addJobCost_get_cost]
    ring

lemma foldl_addJobCost_linux (jobs : List Job) (acc : CostResult) :
    (jobs.foldl addJobCost acc).linux
      = acc.linux + (jobs.map (fun j => jobClassCost j .UBUNTU)).sum := by
  induction jobs generalizing acc with
  | nil => simp
  | cons j rest ih =>
    simp only [List.foldl_cons, List.map_cons, List.sum_cons, ih, addJobCost_linux]
    ring

lemma foldl_addJobCost_windows (jobs : List Job) (acc : CostResult) :
    (jobs.foldl addJobCost acc).windows
      = acc.windows + (jobs.map (fun j => jobClassCost j .WINDOWS)).sum := by
  induction jobs generalizing acc with
  | nil => simp
  | cons j rest ih =>
    simp only [List.foldl_cons, List.map_cons, List.sum_cons, ih, addJobCost_windows]
    ring

lemma foldl_addJobCost_macos (jobs : List Job) (acc : CostResult) :
    (jobs.foldl addJobCost acc).macos
      = acc.macos + (jobs.map (fun j => jobClassCost j .MACOS)).sum := by
  induction jobs generalizing acc with
  | nil => simp
  | cons j rest ih =>
    simp only [List.foldl_cons, List.map_cons, List.sum_cons, ih, addJobCost_macos]
    ring

lemma sum_jobClassCost (jobs : List Job) (os : OSClass) :
    (jobs.map (fun j => jobClassCost j os)).sum
      = (jobs.map (fun j => jobClassMinutes j os)).sum * PRICING.rate os := by
  induction jobs with
  | nil => simp
  | cons j rest ih =>
    simp only [List.map_cons, List.sum_cons, ih]
    rw [jobClassCost]
    ring

lemma calculateCostFromJobs_get_minutes (jobs : List Job) (os : OSClass) :
    ((calculateCostFromJobs jobs).breakdown.get os).minutes
      = (jobs.map (fun j => jobClassMinutes j os)).sum := by
  have h := foldl_addJobCost_get_minutes jobs emptyCosts os
  unfold calculateCostFromJobs
  cases os <;> simpa [Breakdown.get, emptyCosts] using h

lemma calculateCostFromJobs_get_cost (jobs : List Job) (os : OSClass) :
    ((calculateCostFromJobs jobs).breakdown.get os).cost
      = (jobs.map (fun j => jobClassCost j os)).sum := by
  have h := foldl_addJobCost_get_cost jobs emptyCosts os
  unfold calculateCostFromJobs
  cases os <;> simpa [Breakdown.get, emptyCosts] using h

lemma calculateCostFromJobs_linux (jobs : List Job) :
    (calculateCostFromJobs jobs).linux = (jobs.map (fun j => jobClassCost j .UBUNTU)).sum := by
  have h := foldl_addJobCost_linux jobs emptyCosts
  unfold calculateCostFromJobs
  simpa [emptyCosts] using h

lemma calculateCostFromJobs_windows (jobs : List Job) :
    (calculateCostFromJobs jobs).windows = (jobs.map (fun j => jobClassCost j .WINDOWS)).sum := by
  have h := foldl_addJobCost_windows jobs emptyCosts
  unfold calculateCostFromJobs
  simpa [emptyCosts] using h

lemma calculateCostFromJobs_macos (jobs : List Job) :
    (calculateCostFromJobs jobs).macos = (jobs.map (fun j => jobClassCost j .MACOS)).sum := by
  have h := foldl_addJobCost_macos jobs emptyCosts
  unfold calculateCostFromJobs
  simpa [emptyCosts] using h

lemma calculateCostFromJobs_total (jobs : List Job) :
    (calculateCostFromJobs jobs).total
      = (calculateCostFromJobs jobs).linux + (calculateCostFromJobs jobs).windows
        + (calculateCostFromJobs jobs).macos := by
  unfold calculateCostFromJobs
  simp

lemma stepRun_linuxMinutes (acc : Totals) (run : Run) :
    (stepRun acc run).linuxMinutes = acc.linuxMinutes + runClassMinutes run .UBUNTU := by
  unfold stepRun runClassMinutes
  cases runCost run <;> simp [Breakdown.get]

lemma stepRun_windowsMinutes (acc : Totals) (run : Run) :
    (stepRun acc run).windowsMinutes = acc.windowsMinutes + runClassMinutes run .WINDOWS := by
  unfold stepRun runClassMinutes
  cases runCost run <;> simp [Breakdown.get]

lemma stepRun_macosMinutes (acc : Totals) (run : Run) :
    (stepRun acc run).macosMinutes = acc.macosMinutes + runClassMinutes run .MACOS := by
  unfold stepRun runClassMinutes
  cases runCost run <;> simp [Breakdown.get]

lemma stepRun_cost (acc : Totals) (run : Run) :
    (stepRun acc run).cost = acc.cost + runTotalCost run := by
  unfold stepRun runTotalCost
  cases runCost run <;> simp

lemma stepRun_analyzedRuns (acc : Totals) (run : Run) :
    (stepRun acc run).analyzedRuns = acc.analyzedRuns + runAnalyzedCount run := by
  unfold stepRun runAnalyzedCount
  cases runCost run <;> simp

lemma foldl_stepRun_linuxMinutes (runs : List Run) (acc : Totals) :
    (runs.foldl stepRun acc).linuxMinutes
      = acc.linuxMinutes + (runs.map (fun r => runClassMinutes r .UBUNTU)).sum := by
  induction runs generalizing acc with
  | nil => simp
  | cons r rest ih =>
    simp only [List.foldl_cons, List.map_cons, List.sum_cons, ih, stepRun_linuxMinutes]
    ring

lemma foldl_stepRun_windowsMinutes (runs : List Run) (acc : Totals) :
    (runs.foldl stepRun acc).windowsMinutes
      = acc.windowsMinutes + (runs.map (fun r => runClassMinutes r .WINDOWS)).sum := by
  induction runs generalizing acc with
  | nil => simp
  | cons r rest ih =>
    simp only [List.foldl_cons, List.map_cons, List.sum_cons, ih, stepRun_windowsMinutes]
    ring

lemma foldl_stepRun_macosMinutes (runs : List Run) (acc : Totals) :
    (runs.foldl stepRun acc).macosMinutes
      = acc.macosMinutes + (runs.map (fun r => runClassMinutes r .MACOS)).sum := by
  induction runs generalizing acc with
  | nil => simp
  | cons r rest ih =>
    simp only [List.foldl_cons, List.map_cons, List.sum_cons, ih, stepRun_macosMinutes]
    ring

lemma foldl_stepRun_cost (runs : List Run) (acc : Totals) :
    (runs.foldl stepRun acc).cost = acc.cost + (runs.map runTotalCost).sum := by
  induction runs generalizing acc with
  | nil => simp
  | cons r rest ih =>
    simp only [List.foldl_cons, List.map_cons, List.sum_cons, ih, stepRun_cost]
    ring

lemma foldl_stepRun_analyzedRuns (runs : List Run) (acc : Totals) :
    (runs.foldl stepRun acc).analyzedRuns
      = acc.analyzedRuns + (runs.map runAnalyzedCount).sum := by
  induction runs generalizing acc with
  | nil => simp
  | cons r rest ih =>
    simp only [List.foldl_cons, List.map_cons, List.sum_cons, ih, stepRun_analyzedRuns]
    omega

lemma calculateRepoCost_linuxMinutes (owner repo : String) (runs : List Run) (days : ℚ) :
    (calculateRepoCost owner repo runs days).linuxMinutes
      = (runs.map (fun r => runClassMinutes r .UBUNTU)).sum := by
  unfold calculateRepoCost
  simpa using foldl_stepRun_linuxMinutes runs ⟨0, 0, 0, 0, 0⟩

lemma calculateRepoCost_windowsMinutes (owner repo : String) (runs : List Run) (days : ℚ) :
    (calculateRepoCost owner repo runs days).windowsMinutes
      = (runs.map (fun r => runClassMinutes r .WINDOWS)).sum := by
  unfold calculateRepoCost
  simpa using foldl_stepRun_windowsMinutes runs ⟨0, 0, 0, 0, 0⟩

lemma calculateRepoCost_macosMinutes (owner repo : String) (runs : List Run) (days : ℚ) :
    (calculateRepoCost owner repo runs days).macosMinutes
      = (runs.map (fun r => runClassMinutes r .MACOS)).sum := by
  unfold calculateRepoCost
  simpa using foldl_stepRun_macosMinutes runs ⟨0, 0, 0, 0, 0⟩

lemma calculateRepoCost_actualCost (owner repo : String) (runs : List Run) (days : ℚ) :
    (calculateRepoCost owner repo runs days).actualCost = (runs.map runTotalCost).sum := by
  unfold calculateRepoCost
  simpa using foldl_stepRun_cost runs ⟨0, 0, 0, 0, 0⟩

lemma calculateRepoCost_analyzedRuns (owner repo : String) (runs : List Run) (days : ℚ) :
    (calculateRepoCost owner repo runs days).analyzedRuns
      = (runs.map runAnalyzedCount).sum := by
  unfold calculateRepoCost
  simpa using foldl_stepRun_analyzedRuns runs ⟨0, 0, 0, 0, 0⟩

lemma calculateRepoCost_totalRuns (owner repo : String) (runs : List Run) (days : ℚ) :
    (calculateRepoCost owner repo runs days).totalRuns = runs.length := rfl

lemma calculateRepoCost_monthlyCost (owner repo : String) (runs : List Run) (days : ℚ) :
    (calculateRepoCost owner repo runs days).monthlyCost
      = (calculateRepoCost owner repo runs days).actualCost * (30 / days) := rfl

lemma calculateRepoCost_yearlyCost (owner repo : String) (runs : List Run) (days : ℚ) :
    (calculateRepoCost owner repo runs days).yearlyCost
      = (calculateRepoCost owner repo runs days).actualCost * (365 / days) := rfl

lemma runCost_of_failures (run : Run) (hU : usagePathFails run = true)
    (hJ : run.jobs = none) : runCost run = none := by
  unfold runCost
  unfold usagePathFails at hU
  rcases hru : run.usage with _ | billable <;> simp [hru, hJ]
  rw [hru] at hU
  simp at hU
  simp [computeFromAuthoritative, hU]

lemma Breakdown.get_UBUNTU (b : Breakdown) : b.get .UBUNTU = b.UBUNTU := rfl

lemma Breakdown.get_WINDOWS (b : Breakdown) : b.get .WINDOWS = b.WINDOWS := rfl

lemma Breakdown.get_MACOS (b : Breakdown) : b.get .MACOS = b.MACOS := rfl

lemma classCostOf_cost_eq (rate : ℚ) (billable : Billable) (key : String) :
    (classCostOf rate billable key).cost = (classCostOf rate billable key).minutes * rate := by
  unfold classCostOf
  cases classMs billable key <;> simp

lemma calcFromBillable_get_minutes (billable : Billable) (os : OSClass) :
    ((calculateCostFromBillable billable).breakdown.get os).minutes
      = msOr0 billable (osKey os) / 60000 := by
  cases os
  case UBUNTU =>
    unfold calculateCostFromBillable msOr0 osKey Breakdown.get classCostOf
    cases h : classMs billable "UBUNTU" <;> simp [h, div_div] <;> norm_num
  case WINDOWS =>
    unfold calculateCostFromBillable msOr0 osKey Breakdown.get classCostOf
    cases h : classMs billable "WINDOWS" <;> simp [h, div_div] <;> norm_num
  case MACOS =>
    unfold calculateCostFromBillable msOr0 osKey Breakdown.get classCostOf
    cases h : classMs billable "MACOS" <;> simp [h, div_div] <;> norm_num

lemma calcFromBillable_get_cost (billable : Billable) (os : OSClass) :
    ((calculateCostFromBillable billable).breakdown.get os).cost
      = msOr0 billable (osKey os) / 60000 * PRICING.rate os := by
  cases os
  case UBUNTU =>
    unfold calculateCostFromBillable msOr0 osKey Breakdown.get classCostOf PRICING.rate
    cases h : classMs billable "UBUNTU" <;> simp [h, div_div] <;> norm_num
  case WINDOWS =>
    unfold calculateCostFromBillable msOr0 osKey Breakdown.get classCostOf PRICING.rate
    cases h : classMs billable "WINDOWS" <;> simp [h, div_div] <;> norm_num
  case MACOS =>
    unfold calculateCostFromBillable msOr0 osKey Breakdown.get classCostOf PRICING.rate
    cases h : classMs billable "MACOS" <;> simp [h, div_div] <;> norm_num

lemma calcFromBillable_total (billable : Billable) :
    (calculateCostFromBillable billable).total
      = (calculateCostFromBillable billable).breakdown.UBUNTU.cost
        + (calculateCostFromBillable billable).breakdown.WINDOWS.cost
        + (calculateCostFromBillable billable).breakdown.MACOS.cost := rfl

lemma computeFromAuthoritative_cases (billable : Billable) :
    computeFromAuthoritative billable = none ∨
      computeFromAuthoritative billable = some (calculateCostFromBillable billable) := by
  unfold computeFromAuthoritative
  cases h : hasBillableData billable <;> simp [h]

lemma computeFromAuthoritative_none_iff (billable : Billable) :
    computeFromAuthoritative billable = none ↔
      ∀ p ∈ billable, ∀ t : ℚ, p.2 = some t → t ≤ 0 := by
  have base : computeFromAuthoritative billable = none ↔
      hasBillableData billable = false := by
    unfold computeFromAuthoritative
    cases h : hasBillableData billable <;> simp [h]
  rw [base]
  unfold hasBillableData
  constructor
  · intro hall p hp t ht
    by_contra hpos
    push_neg at hpos
    have hany : billable.any (fun p =>
        match p.2 with
        | some t => decide (0 < t)
        | none => false) = true :=
      List.any_eq_true.mpr ⟨p, hp, by simp [ht, hpos]⟩
    rw [hany] at hall
    exact absurd hall (by simp)
  · intro hle
    have hnot : ¬ billable.any (fun p =>
        match p.2 with
        | some t => decide (0 < t)
        | none => false) = true := by
      rw [List.any_eq_true]
      rintro ⟨p, hp, hpt⟩
      rcases hv : p.2 with _ | t
      · rw [hv] at hpt
        simp at hpt
      · rw [hv] at hpt
        simp only [decide_eq_true_eq] at hpt
        exact absurd hpt (not_lt.mpr (hle p hp t hv))
    simpa [Bool.not_eq_true] using hnot

lemma lookup_mem {l : List (String × Option ℚ)} {k : String} {v : Option ℚ}
    (h : List.lookup k l = some v) : (k, v) ∈ l := by
  induction l with
  | nil => simp [List.lookup] at h
  | cons p rest ih =>
    obtain ⟨pk, pv⟩ := p
    rw [List.lookup] at h
    rcases hbeq : (k == pk) with _ | _ <;> rw [hbeq] at h
    · exact List.mem_cons_of_mem _ (ih h)
    · cases h
      have : k = pk := by simpa using hbeq
      subst this
      exact List.mem_cons_self _ _

lemma sum_runAnalyzedCount_le (runs : List Run) :
    (runs.map runAnalyzedCount).sum ≤ runs.length := by
  induction runs with
  | nil => simp
  | cons r rest ih =>
    simp only [List.map_cons, List.sum_cons, List.length_cons]
    have h1 : runAnalyzedCount r ≤ 1 := by
      unfold runAnalyzedCount
      cases runCost r <;> simp
    omega

lemma runTotalCost_of_none {r : Run} (h : runCost r = none) : runTotalCost r = 0 := by
  unfold runTotalCost
  rw [h]

lemma runClassMinutes_of_none {r : Run} (h : runCost r = none) (os : OSClass) :
    runClassMinutes r os = 0 := by
  unfold runClassMinutes
  rw [h]

lemma runAnalyzedCount_of_none {r : Run} (h : runCost r = none) :
    runAnalyzedCount r = 0 := by
  unfold runAnalyzedCount
  rw [h]

/-- C6: classifyRunnerOS (detectRunnerOS) lower-cases every label and
returns MACOS if any label contains "macos" or "mac-os", else WINDOWS if
any label contains "windows", else the Linux class (UBUNTU); the mac check
happens first, so labels indicating both macOS and Windows classify as
MACOS, and the empty label set classifies as the Linux default.  The
operation is a total function, so it never fails. -/
theorem detectRunnerOS_spec (labels : List String) :
    detectRunnerOS labels =
      (if labels.any (fun l => jsIncludes (jsToLower l) "macos"
            || jsIncludes (jsToLower l) "mac-os") then OSClass.MACOS
       else if labels.any (fun l => jsIncludes (jsToLower l) "windows") then
         OSClass.WINDOWS
       else OSClass.UBUNTU) ∧
    detectRunnerOS ["windows-2022"] = OSClass.WINDOWS ∧
    detectRunnerOS ["self-hosted", "macos-14"] = OSClass.MACOS ∧
    detectRunnerOS ["ubuntu-latest"] = OSClass.UBUNTU ∧
    detectRunnerOS [] = OSClass.UBUNTU ∧
    detectRunnerOS ["macos-14", "windows-2022"] = OSClass.MACOS := by
  refine ⟨?_, by decide, by decide, by decide, by decide, by decide⟩
  simp only [detectRunnerOS, List.any_map]
  rfl

/-- C9: for every non-negative millisecond duration d and every OS class,
the CLI cost model computes minutes d / 60000 and cost (d / 60000) times
the class rate, exactly, in rational arithmetic; the rates are the fixed
constants LINUX = 0.008, WINDOWS = 0.016 (2x Linux), MACOS = 0.08
(10x Linux). -/
theorem calculateCost_exact (d : ℚ) (os : OSClass) (h : 0 ≤ d) :
    ((calculateCost (singleBillable os d)).breakdown.get os).minutes = d / 60000 ∧
    ((calculateCost (singleBillable os d)).breakdown.get os).cost
      = d / 60000 * PRICING.rate os ∧
    PRICING.LINUX = 0.008 ∧ PRICING.WINDOWS = 0.016 ∧ PRICING.MACOS = 0.08 ∧
    PRICING.WINDOWS = 2 * PRICING.LINUX ∧ PRICING.MACOS = 10 * PRICING.LINUX := by
  refine ⟨?_, ?_, rfl, rfl, rfl, ?_, ?_⟩
  · cases os <;>
      norm_num [calculateCost, singleBillable, osKey, Breakdown.get, List.lookup,
        PRICING.rate, div_div]
  · cases os <;>
      norm_num [calculateCost, singleBillable, osKey, Breakdown.get, List.lookup,
        PRICING.rate, div_div]
  · norm_num [PRICING.WINDOWS, PRICING.LINUX]
  · norm_num [PRICING.MACOS, PRICING.LINUX]

/-- Witness for C9 at d = 60000 (one Linux minute). -/
theorem calculateCost_exact_witness :
    (0 : ℚ) ≤ 60000 ∧
    ((calculateCost (singleBillable .UBUNTU 60000)).breakdown.get .UBUNTU).minutes
      = 60000 / 60000 :=
  ⟨by norm_num, (calculateCost_exact 60000 .UBUNTU (by norm_num)).1⟩

/-- C8: every cost breakdown produced by the job-based computation or by
the authoritative computation satisfies: the grand total is the sum of the
three per-class costs, and each per-class cost is that class's minutes
multiplied by the class rate; moreover computeFromAuthoritative either
signals insufficiency or returns exactly the authoritative breakdown. -/
theorem costResult_invariants (jobs : List Job) (billable : Billable) :
    ((calculateCostFromJobs jobs).total
        = (calculateCostFromJobs jobs).breakdown.UBUNTU.cost
          + (calculateCostFromJobs jobs).breakdown.WINDOWS.cost
          + (calculateCostFromJobs jobs).breakdown.MACOS.cost ∧
      (calculateCostFromJobs jobs).breakdown.UBUNTU.cost
        = (calculateCostFromJobs jobs).breakdown.UBUNTU.minutes * PRICING.LINUX ∧
      (calculateCostFromJobs jobs).breakdown.WINDOWS.cost
        = (calculateCostFromJobs jobs).breakdown.WINDOWS.minutes * PRICING.WINDOWS ∧
      (calculateCostFromJobs jobs).breakdown.MACOS.cost
        = (calculateCostFromJobs jobs).breakdown.MACOS.minutes * PRICING.MACOS) ∧
    ((calculateCostFromBillable billable).total
        = (calculateCostFromBillable billable).breakdown.UBUNTU.cost
          + (calculateCostFromBillable billable).breakdown.WINDOWS.cost
          + (calculateCostFromBillable billable).breakdown.MACOS.cost ∧
      (calculateCostFromBillable billable).breakdown.UBUNTU.cost
        = (calculateCostFromBillable billable).breakdown.UBUNTU.minutes * PRICING.LINUX ∧
      (calculateCostFromBillable billable).breakdown.WINDOWS.cost
        = (calculateCostFromBillable billable).breakdown.WINDOWS.minutes * PRICING.WINDOWS ∧
      (calculateCostFromBillable billable).breakdown.MACOS.cost
        = (calculateCostFromBillable billable).breakdown.MACOS.minutes * PRICING.MACOS) ∧
    (computeFromAuthoritative billable = none ∨
      computeFromAuthoritative billable = some (calculateCostFromBillable billable)) := by
  refine ⟨⟨?_, ?_, ?_, ?_⟩, ⟨?_, ?_, ?_, ?_⟩, computeFromAuthoritative_cases billable⟩
  · rw [calculateCostFromJobs_total,
      calculateCostFromJobs_linux, calculateCostFromJobs_windows, calculateCostFromJobs_macos,
      ← Breakdown.get_UBUNTU, ← Breakdown.get_WINDOWS, ← Breakdown.get_MACOS,
      calculateCostFromJobs_get_cost, calculateCostFromJobs_get_cost,
      calculateCostFromJobs_get_cost]
  · rw [← Breakdown.get_UBUNTU, calculateCostFromJobs_get_cost,
      calculateCostFromJobs_get_minutes, sum_jobClassCost]
    rfl
  · rw [← Breakdown.get_WINDOWS, calculateCostFromJobs_get_cost,
      calculateCostFromJobs_get_minutes, sum_jobClassCost]
    rfl
  · rw [← Breakdown.get_MACOS, calculateCostFromJobs_get_cost,
      calculateCostFromJobs_get_minutes, sum_jobClassCost]
    rfl
  · exact calcFromBillable_total billable
  · rw [← Breakdown.get_UBUNTU, calcFromBillable_get_cost, calcFromBillable_get_minutes]
    rfl
  · rw [← Breakdown.get_WINDOWS, calcFromBillable_get_cost, calcFromBillable_get_minutes]
    rfl
  · rw [← Breakdown.get_MACOS, calcFromBillable_get_cost, calcFromBillable_get_minutes]
    rfl

/-- C7: computeFromJobs (calculateCostFromJobs) is a total function; a job
missing its start or end timestamp contributes exactly zero, every other
job contributes (end - start) / 60000 minutes (and that times the class
rate as cost) to the bucket of the class its labels classify to; on
[{start: null, end: t}, {start: t1, end: t2, labels: ["ubuntu-latest"]}]
with t2 - t1 = 120000 ms the result is exactly 2 Linux minutes at cost
0.016, the null-start job contributing 0. -/
theorem calculateCostFromJobs_spec (t t1 t2 : ℚ) (h : t2 - t1 = 120000) :
    (∀ jobs : List Job, ∀ os : OSClass,
        ((calculateCostFromJobs jobs).breakdown.get os).minutes
          = (jobs.map (fun j => jobClassMinutes j os)).sum ∧
        ((calculateCostFromJobs jobs).breakdown.get os).cost
          = (jobs.map (fun j => jobClassMinutes j os)).sum * PRICING.rate os) ∧
    (calculateCostFromJobs
        [{ started_at := none, completed_at := some t, labels := [] },
         { started_at := some t1, completed_at := some t2,
           labels := ["ubuntu-latest"] }]).breakdown.UBUNTU.minutes = 2 ∧
    (calculateCostFromJobs
        [{ started_at := none, completed_at := some t, labels := [] },
         { started_at := some t1, completed_at := some t2,
           labels := ["ubuntu-latest"] }]).breakdown.UBUNTU.cost = 0.016 ∧
    (calculateCostFromJobs
        [{ started_at := none, completed_at := some t, labels := [] },
         { started_at := some t1, completed_at := some t2,
           labels := ["ubuntu-latest"] }]).total = 0.016 ∧
    (calculateCostFromJobs
        [{ started_at := none, completed_at := some t, labels := [] },
         { started_at := some t1, completed_at := some t2,
           labels := ["ubuntu-latest"] }]).breakdown.WINDOWS.minutes = 0 ∧
    (calculateCostFromJobs
        [{ started_at := none, completed_at := some t, labels := [] },
         { started_at := some t1, completed_at := some t2,
           labels := ["ubuntu-latest"] }]).breakdown.MACOS.minutes = 0 := by
  have hdet : detectRunnerOS ["ubuntu-latest"] = OSClass.UBUNTU := by decide
  refine ⟨fun jobs os => ⟨calculateCostFromJobs_get_minutes jobs os, ?_⟩,
    ?_, ?_, ?_, ?_, ?_⟩
  · rw [calculateCostFromJobs_get_cost, sum_jobClassCost]
  · rw [← Breakdown.get_UBUNTU, calculateCostFromJobs_get_minutes]
    simp [jobClassMinutes, hdet, h]
    norm_num
  · rw [← Breakdown.get_UBUNTU, calculateCostFromJobs_get_cost]
    simp [jobClassCost, jobClassMinutes, hdet, h, PRICING.rate]
    norm_num [PRICING.LINUX]
  · rw [calculateCostFromJobs_total, calculateCostFromJobs_linux,
      calculateCostFromJobs_windows, calculateCostFromJobs_macos]
    simp [jobClassCost, jobClassMinutes, hdet, h, PRICING.rate]
    norm_num [PRICING.LINUX]
  · rw [← Breakdown.get_WINDOWS, calculateCostFromJobs_get_minutes]
    simp [jobClassMinutes, hdet]
  · rw [← Breakdown.get_MACOS, calculateCostFromJobs_get_minutes]
    simp [jobClassMinutes, hdet]

/-- Witness for C7 at t = 0, t1 = 0, t2 = 120000. -/
theorem calculateCostFromJobs_spec_witness :
    (120000 : ℚ) - 0 = 120000 ∧
    (calculateCostFromJobs
        [{ started_at := none, completed_at := some 0, labels := [] },
         { started_at := some 0, completed_at := some 120000,
           labels := ["ubuntu-latest"] }]).breakdown.UBUNTU.minutes = 2 :=
  ⟨by norm_num, (calculateCostFromJobs_spec 0 0 120000 (by norm_num)).2.1⟩

/-- C2 counterexample: {UBUNTU: {total_ms: -1}} is routed to
InsufficientData by the code, although the usage record is neither empty
nor carries only zero durations, so the claimed iff fails on negative
durations. -/
theorem computeFromAuthoritative_negative_counterexample :
    computeFromAuthoritative [("UBUNTU", some (-1 : ℚ))] = none ∧
    ¬ (([("UBUNTU", some (-1 : ℚ))] : Billable) = [] ∨
        ∀ p ∈ ([("UBUNTU", some (-1 : ℚ))] : Billable), p.2 = some 0) := by
  constructor
  · rw [computeFromAuthoritative_none_iff]
    rintro p hp s hs
    simp only [List.mem_singleton] at hp
    subst hp
    simp only [Option.some.injEq] at hs
    subst hs
    norm_num
  · rintro (hempty | hzero)
    · simp at hempty
    · have := hzero ("UBUNTU", some (-1 : ℚ)) (by simp)
      simp only [Option.some.injEq] at this
      norm_num at this

/-- C2 amended: computeFromAuthoritative signals InsufficientData iff the
usage record is empty or every present class has a non-positive (or
missing) duration; {UBUNTU: {total_ms: 0}} is InsufficientData, and
{UBUNTU: {total_ms: 60000}} is not and yields exactly 1 Linux minute at
cost 0.008. -/
theorem computeFromAuthoritative_insufficient_iff (billable : Billable) :
    (computeFromAuthoritative billable = none ↔
      ∀ p ∈ billable, ∀ t : ℚ, p.2 = some t → t ≤ 0) ∧
    computeFromAuthoritative [("UBUNTU", some (0 : ℚ))] = none ∧
    computeFromAuthoritative [("UBUNTU", some (60000 : ℚ))]
      = some (calculateCostFromBillable [("UBUNTU", some (60000 : ℚ))]) ∧
    (calculateCostFromBillable
        [("UBUNTU", some (60000 : ℚ))]).breakdown.UBUNTU.minutes = 1 ∧
    (calculateCostFromBillable
        [("UBUNTU", some (60000 : ℚ))]).breakdown.UBUNTU.cost = 0.008 ∧
    (calculateCostFromBillable [("UBUNTU", some (60000 : ℚ))]).total = 0.008 := by
  have hb : hasBillableData [("UBUNTU", some (60000 : ℚ))] = true := by
    norm_num [hasBillableData, List.any]
  have hm : msOr0 [("UBUNTU", some (60000 : ℚ))] "UBUNTU" = 60000 := by
    norm_num [msOr0, classMs, List.lookup]
  have hmin : (calculateCostFromBillable
      [("UBUNTU", some (60000 : ℚ))]).breakdown.UBUNTU.minutes = 1 := by
    rw [← Breakdown.get_UBUNTU, calcFromBillable_get_minutes]
    simp only [osKey]
    rw [hm]
    norm_num
  have hcost : (calculateCostFromBillable
      [("UBUNTU", some (60000 : ℚ))]).breakdown.UBUNTU.cost = 0.008 := by
    rw [← Breakdown.get_UBUNTU, calcFromBillable_get_cost]
    simp only [osKey]
    rw [hm]
    norm_num [PRICING.rate, PRICING.LINUX]
  refine ⟨computeFromAuthoritative_none_iff billable, ?_, ?_, hmin, hcost, ?_⟩
  · rw [computeFromAuthoritative_none_iff]
    rintro p hp s hs
    simp only [List.mem_singleton] at hp
    subst hp
    simp only [Option.some.injEq] at hs
    subst hs
    norm_num
  · simp [computeFromAuthoritative, hb]
  · rw [calcFromBillable_total]
    rw [hcost]
    rw [← Breakdown.get_WINDOWS, calcFromBillable_get_cost]
    rw [← Breakdown.get_MACOS, calcFromBillable_get_cost]
    have hw : ("WINDOWS" == "UBUNTU") = false := by decide
    have hmac : ("MACOS" == "UBUNTU") = false := by decide
    norm_num [msOr0, classMs, List.lookup, osKey, hw, hmac]

/-- C3 counterexample: in the payload {UBUNTU: {total_ms: -60000},
WINDOWS: {total_ms: 60000}} the UBUNTU class has a non-positive duration,
yet the authoritative computation contributes -1 minute and cost -0.008
for it instead of the claimed exact zero. -/
theorem calcFromBillable_negative_counterexample :
    computeFromAuthoritative
        [("UBUNTU", some (-60000 : ℚ)), ("WINDOWS", some (60000 : ℚ))]
      = some (calculateCostFromBillable
          [("UBUNTU", some (-60000 : ℚ)), ("WINDOWS", some (60000 : ℚ))]) ∧
    (calculateCostFromBillable
        [("UBUNTU", some (-60000 : ℚ)),
         ("WINDOWS", some (60000 : ℚ))]).breakdown.UBUNTU.minutes = -1 ∧
    (calculateCostFromBillable
        [("UBUNTU", some (-60000 : ℚ)),
         ("WINDOWS", some (60000 : ℚ))]).breakdown.UBUNTU.cost = -(0.008 : ℚ) := by
  have hb : hasBillableData
      [("UBUNTU", some (-60000 : ℚ)), ("WINDOWS", some (60000 : ℚ))] = true := by
    norm_num [hasBillableData, List.any]
  have hm : msOr0
      [("UBUNTU", some (-60000 : ℚ)), ("WINDOWS", some (60000 : ℚ))] "UBUNTU"
      = -60000 := by
    norm_num [msOr0, classMs, List.lookup]
  refine ⟨by simp [computeFromAuthoritative, hb], ?_, ?_⟩
  · rw [← Breakdown.get_UBUNTU, calcFromBillable_get_minutes]
    simp only [osKey]
    rw [hm]
    norm_num
  · rw [← Breakdown.get_UBUNTU, calcFromBillable_get_cost]
    simp only [osKey]
    rw [hm]
    norm_num [PRICING.rate, PRICING.LINUX]

/-- C3 amended: the authoritative computation converts each class present
with a duration field to minutes by dividing milliseconds by 60000 and
multiplies by that class's rate regardless of the duration's sign; a class
absent or without a duration field contributes exactly zero (msOr0 is 0),
and hence so does a class with zero duration.  computeFromAuthoritative
either signals InsufficientData or returns exactly this breakdown. -/
theorem calcFromBillable_contribution (billable : Billable) (os : OSClass) :
    ((calculateCostFromBillable billable).breakdown.get os).minutes
      = msOr0 billable (osKey os) / 60000 ∧
    ((calculateCostFromBillable billable).breakdown.get os).cost
      = msOr0 billable (osKey os) / 60000 * PRICING.rate os ∧
    (computeFromAuthoritative billable = none ∨
      computeFromAuthoritative billable = some (calculateCostFromBillable billable)) :=
  ⟨calcFromBillable_get_minutes billable os, calcFromBillable_get_cost billable os,
    computeFromAuthoritative_cases billable⟩

/-- C5: for every aggregation with days > 0, monthlyCost is
actualCost * (30 / days) and yearlyCost is actualCost * (365 / days); in
particular for days = 7 and actualCost = 1 the projections are 30/7 and
365/7. -/
theorem calculateRepoCost_projections (owner repo : String) (runs : List Run)
    (days : ℚ) (h : 0 < days) :
    (calculateRepoCost owner repo runs days).monthlyCost
      = (calculateRepoCost owner repo runs days).actualCost * (30 / days) ∧
    (calculateRepoCost owner repo runs days).yearlyCost
      = (calculateRepoCost owner repo runs days).actualCost * (365 / days) ∧
    (calculateRepoCost "o" "r" [sampleUnitCostRun] 7).actualCost = 1 ∧
    (calculateRepoCost "o" "r" [sampleUnitCostRun] 7).monthlyCost = 30 / 7 ∧
    (calculateRepoCost "o" "r" [sampleUnitCostRun] 7).yearlyCost = 365 / 7 := by
  have hb : hasBillableData [("UBUNTU", some (7500000 : ℚ))] = true := by
    norm_num [hasBillableData, List.any]
  have hrc : runCost sampleUnitCostRun
      = some (calculateCostFromBillable [("UBUNTU", some (7500000 : ℚ))]) := by
    simp [runCost, sampleUnitCostRun, computeFromAuthoritative, hb]
  have htot : (calculateCostFromBillable [("UBUNTU", some (7500000 : ℚ))]).total = 1 := by
    rw [calcFromBillable_total]
    rw [← Breakdown.get_UBUNTU, calcFromBillable_get_cost]
    rw [← Breakdown.get_WINDOWS, calcFromBillable_get_cost]
    rw [← Breakdown.get_MACOS, calcFromBillable_get_cost]
    have hw : ("WINDOWS" == "UBUNTU") = false := by decide
    have hmac : ("MACOS" == "UBUNTU") = false := by decide
    norm_num [msOr0, classMs, List.lookup, osKey, hw, hmac, PRICING.rate, PRICING.LINUX]
  have hact : (calculateRepoCost "o" "r" [sampleUnitCostRun] 7).actualCost = 1 := by
    rw [calculateRepoCost_actualCost]
    simp [runTotalCost, hrc, htot]
  refine ⟨rfl, rfl, hact, ?_, ?_⟩
  · rw [calculateRepoCost_monthlyCost, hact]
    norm_num
  · rw [calculateRepoCost_yearlyCost, hact]
    norm_num

/-- Witness for C5 at days = 7. -/
theorem calculateRepoCost_projections_witness :
    (0 : ℚ) < 7 ∧
    (calculateRepoCost "o" "r" [sampleUnitCostRun] 7).monthlyCost = 30 / 7 :=
  ⟨by norm_num, (calculateRepoCost_projections "o" "r" [] 7 (by norm_num)).2.2.2.1⟩

/-- C1 counterexample: at days = -1 (≤ 0) the aggregate does not fail with
an InvalidWindow condition: there is no validation of days anywhere in the
source, and the call returns an ordinary result whose projections are
computed with the unguarded division. -/
theorem calculateRepoCost_returns_at_negative_days :
    (calculateRepoCost "octo" "hello" [] (-1)).daysAnalyzed = -1 ∧
    (calculateRepoCost "octo" "hello" [] (-1)).totalRuns = 0 ∧
    (calculateRepoCost "octo" "hello" [] (-1)).analyzedRuns = 0 ∧
    (calculateRepoCost "octo" "hello" [] (-1)).actualCost = 0 ∧
    (calculateRepoCost "octo" "hello" [] (-1)).monthlyCost = 0 ∧
    (calculateRepoCost "octo" "hello" [] (-1)).yearlyCost = 0 := by
  norm_num [calculateRepoCost]

/-- C1 amended: the aggregate never fails, for days ≤ 0 included: the
source performs no window validation, so the call still returns a result
of the ordinary shape (with the projection multipliers produced by the
unguarded division); rejecting days ≤ 0 is left entirely to callers. -/
theorem calculateRepoCost_no_window_validation (owner repo : String)
    (runs : List Run) (days : ℚ) (h : days ≤ 0) :
    (calculateRepoCost owner repo runs days).totalRuns = runs.length ∧
    (calculateRepoCost owner repo runs days).daysAnalyzed = days ∧
    (calculateRepoCost owner repo runs days).analyzedRuns
      ≤ (calculateRepoCost owner repo runs days).totalRuns ∧
    (calculateRepoCost owner repo runs days).monthlyCost
      = (calculateRepoCost owner repo runs days).actualCost * (30 / days) ∧
    (calculateRepoCost owner repo runs days).yearlyCost
      = (calculateRepoCost owner repo runs days).actualCost * (365 / days) := by
  refine ⟨rfl, rfl, ?_, rfl, rfl⟩
  rw [calculateRepoCost_analyzedRuns, calculateRepoCost_totalRuns]
  exact sum_runAnalyzedCount_le runs

/-- Witness for the amended C1 at days = -2. -/
theorem calculateRepoCost_no_window_validation_witness :
    (-2 : ℚ) ≤ 0 ∧ (calculateRepoCost "o" "r" [] (-2)).totalRuns = ([] : List Run).length :=
  ⟨by norm_num, (calculateRepoCost_no_window_validation "o" "r" [] (-2) (by norm_num)).1⟩

/-- C4: a run routed to the jobs fallback whose job fetch fails contributes
nothing to any aggregate total and is not counted in analyzedRuns, and the
failure never aborts the batch (the aggregate is a total function);
analyzedRuns is always at most totalRuns; and a batch of 10 runs of which
3 fail both fetches yields analyzedRuns = 7 and totalRuns = 10. -/
theorem aggregate_partial_failure (owner repo : String) (pre post : List Run)
    (r : Run) (days : ℚ) (hU : usagePathFails r = true) (hJ : r.jobs = none) :
    (calculateRepoCost owner repo (pre ++ r :: post) days).actualCost
      = (calculateRepoCost owner repo (pre ++ post) days).actualCost ∧
    (calculateRepoCost owner repo (pre ++ r :: post) days).linuxMinutes
      = (calculateRepoCost owner repo (pre ++ post) days).linuxMinutes ∧
    (calculateRepoCost owner repo (pre ++ r :: post) days).windowsMinutes
      = (calculateRepoCost owner repo (pre ++ post) days).windowsMinutes ∧
    (calculateRepoCost owner repo (pre ++ r :: post) days).macosMinutes
      = (calculateRepoCost owner repo (pre ++ post) days).macosMinutes ∧
    (calculateRepoCost owner repo (pre ++ r :: post) days).analyzedRuns
      = (calculateRepoCost owner repo (pre ++ post) days).analyzedRuns ∧
    (calculateRepoCost owner repo (pre ++ r :: post) days).totalRuns
      = (calculateRepoCost owner repo (pre ++ post) days).totalRuns + 1 ∧
    (∀ runs2 : List Run,
      (calculateRepoCost owner repo runs2 days).analyzedRuns
        ≤ (calculateRepoCost owner repo runs2 days).totalRuns) ∧
    (calculateRepoCost owner repo
        (List.replicate 7 sampleOkRun ++ List.replicate 3 sampleFailedRun) days).analyzedRuns
      = 7 ∧
    (calculateRepoCost owner repo
        (List.replicate 7 sampleOkRun ++ List.replicate 3 sampleFailedRun) days).totalRuns
      = 10 := by
  have hnone : runCost r = none := runCost_of_failures r hU hJ
  have hok : runAnalyzedCount sampleOkRun = 1 := by
    have hb : hasBillableData [("UBUNTU", some (60000 : ℚ))] = true := by
      norm_num [hasBillableData, List.any]
    simp [runAnalyzedCount, runCost, sampleOkRun, computeFromAuthoritative, hb]
  have hbad : runAnalyzedCount sampleFailedRun = 0 := rfl
  refine ⟨?_, ?_, ?_, ?_, ?_, ?_, ?_, ?_, ?_⟩
  · rw [calculateRepoCost_actualCost, calculateRepoCost_actualCost]
    simp [List.map_append, List.sum_append, runTotalCost_of_none hnone]
  · rw [calculateRepoCost_linuxMinutes, calculateRepoCost_linuxMinutes]
    simp [List.map_append, List.sum_append, runClassMinutes_of_none hnone]
  · rw [calculateRepoCost_windowsMinutes, calculateRepoCost_windowsMinutes]
    simp [List.map_append, List.sum_append, runClassMinutes_of_none hnone]
  · rw [calculateRepoCost_macosMinutes, calculateRepoCost_macosMinutes]
    simp [List.map_append, List.sum_append, runClassMinutes_of_none hnone]
  · rw [calculateRepoCost_analyzedRuns, calculateRepoCost_analyzedRuns]
    simp [List.map_append, List.sum_append, runAnalyzedCount_of_none hnone]
  · rw [calculateRepoCost_totalRuns, calculateRepoCost_totalRuns]
    simp [List.length_append]
    omega
  · intro runs2
    rw [calculateRepoCost_analyzedRuns, calculateRepoCost_totalRuns]
    exact sum_runAnalyzedCount_le runs2
  · rw [calculateRepoCost_analyzedRuns]
    simp [List.map_append, List.sum_append, List.map_replicate, List.sum_replicate,
      hok, hbad]
  · rw [calculateRepoCost_totalRuns]
    simp [List.length_append, List.length_replicate]

/-- Witness for C4: the doubly-failing sample run dropped from a singleton
batch. -/
theorem aggregate_partial_failure_witness :
    usagePathFails sampleFailedRun = true ∧ sampleFailedRun.jobs = none ∧
    (calculateRepoCost "o" "r" ([] ++ sampleFailedRun :: []) 7).actualCost
      = (calculateRepoCost "o" "r" ([] ++ []) 7).actualCost :=
  ⟨rfl, rfl, (aggregate_partial_failure "o" "r" [] [] sampleFailedRun 7 rfl rfl).1⟩

/-- C10 counterexample: the payload {UBUNTU: {total_ms: -60000},
X64: {total_ms: 60000}} has its only positive-duration entry under a key
outside the three OS-class keys, is judged sufficient (not routed to the
fallback) and counted as analyzed, yet it contributes -1 Linux minute to
the aggregate instead of the claimed exact zero, because the breakdown
still reads the non-positive UBUNTU entry. -/
theorem aggregate_foreign_key_counterexample :
    (∀ p ∈ ([("UBUNTU", some (-60000 : ℚ)), ("X64", some (60000 : ℚ))] : Billable),
      (∃ t : ℚ, p.2 = some t ∧ 0 < t) →
        ¬ (p.1 = "UBUNTU" ∨ p.1 = "WINDOWS" ∨ p.1 = "MACOS")) ∧
    computeFromAuthoritative [("UBUNTU", some (-60000 : ℚ)), ("X64", some (60000 : ℚ))]
      = some (calculateCostFromBillable
          [("UBUNTU", some (-60000 : ℚ)), ("X64", some (60000 : ℚ))]) ∧
    (calculateRepoCost "o" "r"
        [{ usage := some [("UBUNTU", some (-60000 : ℚ)), ("X64", some (60000 : ℚ))]
           jobs := none }] 7).analyzedRuns = 1 ∧
    (calculateRepoCost "o" "r"
        [{ usage := some [("UBUNTU", some (-60000 : ℚ)), ("X64", some (60000 : ℚ))]
           jobs := none }] 7).linuxMinutes = -1 := by
  have hb : hasBillableData
      [("UBUNTU", some (-60000 : ℚ)), ("X64", some (60000 : ℚ))] = true := by
    norm_num [hasBillableData, List.any]
  have hca : computeFromAuthoritative
      [("UBUNTU", some (-60000 : ℚ)), ("X64", some (60000 : ℚ))]
      = some (calculateCostFromBillable
          [("UBUNTU", some (-60000 : ℚ)), ("X64", some (60000 : ℚ))]) := by
    simp [computeFromAuthoritative, hb]
  have hrc : runCost
      { usage := some [("UBUNTU", some (-60000 : ℚ)), ("X64", some (60000 : ℚ))]
        jobs := none }
      = some (calculateCostFromBillable
          [("UBUNTU", some (-60000 : ℚ)), ("X64", some (60000 : ℚ))]) := by
    simp [runCost, hca]
  have hmin : (calculateCostFromBillable
      [("UBUNTU", some (-60000 : ℚ)), ("X64", some (60000 : ℚ))]).breakdown.UBUNTU.minutes
      = -1 := by
    rw [← Breakdown.get_UBUNTU, calcFromBillable_get_minutes]
    simp only [osKey]
    norm_num [msOr0, classMs, List.lookup]
  refine ⟨?_, hca, ?_, ?_⟩
  · rintro p hp ⟨t, ht, htpos⟩ hkey
    simp only [List.mem_cons, List.mem_singleton] at hp
    rcases hp with hp | hp | hp
    · subst hp
      simp only [Option.some.injEq] at ht
      subst ht
      norm_num at htpos
    · subst hp
      simp at hkey
    · simp at hp
  · rw [calculateRepoCost_analyzedRuns]
    simp [runAnalyzedCount, hrc]
  · rw [calculateRepoCost_linuxMinutes]
    simp only [List.map_cons, List.map_nil, List.sum_cons, List.sum_nil]
    rw [runClassMinutes, hrc]
    simp only [Breakdown.get_UBUNTU]
    rw [hmin]
    norm_num

/-- C10 amended: for a payload with at least one positive-duration entry,
all of them under keys outside UBUNTU / WINDOWS / MACOS, and whose entries
under those three keys (if any) carry a zero or missing duration, the run
is judged sufficient (not routed to the jobs fallback), is counted as
analyzed, and contributes exactly zero minutes and zero cost to every
aggregate total. -/
theorem aggregate_foreign_key_zero (owner repo : String) (u : Billable)
    (rjobs : Option (List Job)) (pre post : List Run) (days : ℚ)
    (hpos : ∃ p ∈ u, ∃ t : ℚ, p.2 = some t ∧ 0 < t)
    (hkeys : ∀ p ∈ u, (p.1 = "UBUNTU" ∨ p.1 = "WINDOWS" ∨ p.1 = "MACOS") →
        (p.2 = some 0 ∨ p.2 = none)) :
    computeFromAuthoritative u = some (calculateCostFromBillable u) ∧
    (calculateRepoCost owner repo (pre ++ ⟨some u, rjobs⟩ :: post) days).analyzedRuns
      = (calculateRepoCost owner repo (pre ++ post) days).analyzedRuns + 1 ∧
    (calculateRepoCost owner repo (pre ++ ⟨some u, rjobs⟩ :: post) days).linuxMinutes
      = (calculateRepoCost owner repo (pre ++ post) days).linuxMinutes ∧
    (calculateRepoCost owner repo (pre ++ ⟨some u, rjobs⟩ :: post) days).windowsMinutes
      = (calculateRepoCost owner repo (pre ++ post) days).windowsMinutes ∧
    (calculateRepoCost owner repo (pre ++ ⟨some u, rjobs⟩ :: post) days).macosMinutes
      = (calculateRepoCost owner repo (pre ++ post) days).macosMinutes ∧
    (calculateRepoCost owner repo (pre ++ ⟨some u, rjobs⟩ :: post) days).actualCost
      = (calculateRepoCost owner repo (pre ++ post) days).actualCost := by
  obtain ⟨p, hp, t, ht, htpos⟩ := hpos
  have hb : hasBillableData u = true := by
    refine List.any_eq_true.mpr ⟨p, hp, ?_⟩
    rw [ht]
    simpa using htpos
  have hca : computeFromAuthoritative u = some (calculateCostFromBillable u) := by
    simp [computeFromAuthoritative, hb]
  have hms : ∀ key : String, (key = "UBUNTU" ∨ key = "WINDOWS" ∨ key = "MACOS") →
      msOr0 u key = 0 := by
    intro key hkey
    unfold msOr0 classMs
    cases hlu : List.lookup key u with
    | none => simp
    | some v =>
      have hmem := lookup_mem hlu
      rcases hkeys (key, v) hmem hkey with hv | hv <;> subst hv <;> simp
  have hms3 : ∀ os : OSClass, msOr0 u (osKey os) = 0 := by
    intro os
    cases os
    · exact hms "UBUNTU" (Or.inl rfl)
    · exact hms "WINDOWS" (Or.inr (Or.inl rfl))
    · exact hms "MACOS" (Or.inr (Or.inr rfl))
  have hzmin : ∀ os : OSClass,
      ((calculateCostFromBillable u).breakdown.get os).minutes = 0 := by
    intro os
    rw [calcFromBillable_get_minutes, hms3 os]
    norm_num
  have hzcost : ∀ os : OSClass,
      ((calculateCostFromBillable u).breakdown.get os).cost = 0 := by
    intro os
    rw [calcFromBillable_get_cost, hms3 os]
    norm_num
  have hztot : (calculateCostFromBillable u).total = 0 := by
    rw [calcFromBillable_total, ← Breakdown.get_UBUNTU, ← Breakdown.get_WINDOWS,
      ← Breakdown.get_MACOS, hzcost, hzcost, hzcost]
    norm_num
  have hrc : runCost ⟨some u, rjobs⟩ = some (calculateCostFromBillable u) := by
    simp [runCost, hca]
  have hrm : ∀ os : OSClass, runClassMinutes ⟨some u, rjobs⟩ os = 0 := by
    intro os
    rw [runClassMinutes, hrc]
    exact hzmin os
  have hrt : runTotalCost ⟨some u, rjobs⟩ = 0 := by
    rw [runTotalCost, hrc]
    exact hztot
  have hra : runAnalyzedCount ⟨some u, rjobs⟩ = 1 := by
    rw [runAnalyzedCount, hrc]
  refine ⟨hca, ?_, ?_, ?_, ?_, ?_⟩
  · rw [calculateRepoCost_analyzedRuns, calculateRepoCost_analyzedRuns]
    simp only [List.map_append, List.sum_append, List.map_cons, List.sum_cons, hra]
    omega
  · rw [calculateRepoCost_linuxMinutes, calculateRepoCost_linuxMinutes]
    simp [List.map_append, List.sum_append, hrm]
  · rw [calculateRepoCost_windowsMinutes, calculateRepoCost_windowsMinutes]
    simp [List.map_append, List.sum_append, hrm]
  · rw [calculateRepoCost_macosMinutes, calculateRepoCost_macosMinutes]
    simp [List.map_append, List.sum_append, hrm]
  · rw [calculateRepoCost_actualCost, calculateRepoCost_actualCost]
    simp [List.map_append, List.sum_append, hrt]

/-- Witness for the amended C10: a payload whose single entry sits under
the foreign key "X64". -/
theorem aggregate_foreign_key_zero_witness :
    computeFromAuthoritative [("X64", some (60000 : ℚ))]
      = some (calculateCostFromBillable [("X64", some (60000 : ℚ))]) ∧
    (calculateRepoCost "o" "r"
        ([] ++ (⟨some [("X64", some (60000 : ℚ))], none⟩ : Run) :: []) 7).analyzedRuns
      = (calculateRepoCost "o" "r" ([] ++ []) 7).analyzedRuns + 1 := by
  have h := aggregate_foreign_key_zero "o" "r" [("X64", some (60000 : ℚ))] none [] [] 7
    ⟨("X64", some (60000 : ℚ)), by simp, 60000, rfl, by norm_num⟩
    (by
      rintro p hp hkey
      simp only [List.mem_singleton] at hp
      subst hp
      simp at hkey)
  exact ⟨h.1, h.2.1⟩
